import Mathlib

/-!
Verification of the embedding inference adapter
(`internal/ml/scripts/embedding_inference.py`).

The development shallowly embeds the script's components:

* `sha256` — the SHA-256 digest used by the fallback encoder
  (`hashlib.sha256`), modelled over `Nat` byte lists with explicit
  reduction modulo `2 ^ 32`;
* `utf8Bytes` — UTF-8 encoding of the input text (`text.encode()`);
* `fallbackRaw` / `l2normalize` / `fallbackVector` — the deterministic
  fallback encoder inside `generate_embeddings` (raw components are exact
  rationals, normalization is over the reals; real arithmetic idealizes
  the script's floating point);
* `load_model` — the model cache, with the loader capability modelled as
  a state transformer so that loader invocations are observable;
* `generate_embeddings` — the embedding service;
* `serveRequest` — the `main` request/response cycle, with the JSON
  parser of the standard library as an abstract capability.

Python exceptions are modelled as `Except` values; wall-clock latency is
not modelled (no claim depends on its value).
-/

namespace Pirex

/-! ## SHA-256 over byte lists (model of `hashlib.sha256(...).digest()`) -/

/-- Right rotation of a 32-bit word held in a `Nat` below `2 ^ 32`. -/
def rotr (n x : Nat) : Nat :=
  (x >>> n) ||| ((x % (1 <<< n)) <<< (32 - n))

/-- SHA-256 round constants. -/
def shaK : List Nat :=
  [1116352408, 1899447441, 3049323471, 3921009573, 961987163,
   1508970993, 2453635748, 2870763221, 3624381080, 310598401,
   607225278, 1426881987, 1925078388, 2162078206, 2614888103,
   3248222580, 3835390401, 4022224774, 264347078, 604807628,
   770255983, 1249150122, 1555081692, 1996064986, 2554220882,
   2821834349, 2952996808, 3210313671, 3336571891, 3584528711,
   113926993, 338241895, 666307205, 773529912, 1294757372,
   1396182291, 1695183700, 1986661051, 2177026350, 2456956037,
   2730485921, 2820302411, 3259730800, 3345764771, 3516065817,
   3600352804, 4094571909, 275423344, 430227734, 506948616,
   659060556, 883997877, 958139571, 1322822218, 1537002063,
   1747873779, 1955562222, 2024104815, 2227730452, 2361852424,
   2428436474, 2756734187, 3204031479, 3329325298]

/-- The eight 32-bit words of a SHA-256 chaining value. -/
structure Hash8 where
  a : Nat
  b : Nat
  c : Nat
  d : Nat
  e : Nat
  f : Nat
  g : Nat
  h : Nat

/-- SHA-256 initial hash value. -/
def initH : Hash8 :=
  ⟨1779033703, 3144134277, 1013904242,
   2773480762, 1359893119, 2600822924,
   528734635, 1541459225⟩

/-- Message padding: append `0x80`, zero bytes to 56 mod 64, then the
bit length as 8 big-endian bytes. -/
def shaPad (msg : List Nat) : List Nat :=
  let L := msg.length
  msg ++ 0x80 :: List.replicate ((119 - (L % 64)) % 64) 0 ++
    [((L * 8) >>> 56) % 256, ((L * 8) >>> 48) % 256,
     ((L * 8) >>> 40) % 256, ((L * 8) >>> 32) % 256,
     ((L * 8) >>> 24) % 256, ((L * 8) >>> 16) % 256,
     ((L * 8) >>> 8) % 256, (L * 8) % 256]

/-- The 16 big-endian 32-bit words of one 64-byte block. -/
def blockWords (block : List Nat) : List Nat :=
  (List.range 16).map fun i =>
    block.getD (4 * i) 0 * 2 ^ 24 + block.getD (4 * i + 1) 0 * 2 ^ 16 +
    block.getD (4 * i + 2) 0 * 2 ^ 8 + block.getD (4 * i + 3) 0

/-- Message schedule: extend the 16 block words to 64. -/
def schedule (ws : List Nat) : List Nat :=
  (List.range 48).foldl
    (fun w _ =>
      let s0 := rotr 7 (w.getD (w.length - 15) 0) ^^^
                rotr 18 (w.getD (w.length - 15) 0) ^^^
                (w.getD (w.length - 15) 0 >>> 3)
      let s1 := rotr 17 (w.getD (w.length - 2) 0) ^^^
                rotr 19 (w.getD (w.length - 2) 0) ^^^
                (w.getD (w.length - 2) 0 >>> 10)
      w ++ [(s1 + w.getD (w.length - 7) 0 + s0 + w.getD (w.length - 16) 0) % 2 ^ 32])
    ws

/-- One SHA-256 compression round. -/
def round (ws : List Nat) (st : Hash8) (i : Nat) : Hash8 :=
  let S1 := rotr 6 st.e ^^^ rotr 11 st.e ^^^ rotr 25 st.e
  let ch := (st.e &&& st.f) ^^^ ((st.e ^^^ 0xffffffff) &&& st.g)
  let t1 := (st.h + S1 + ch + shaK.getD i 0 + ws.getD i 0) % 2 ^ 32
  let S0 := rotr 2 st.a ^^^ rotr 13 st.a ^^^ rotr 22 st.a
  let mj := (st.a &&& st.b) ^^^ (st.a &&& st.c) ^^^ (st.b &&& st.c)
  let t2 := (S0 + mj) % 2 ^ 32
  ⟨(t1 + t2) % 2 ^ 32, st.a, st.b, st.c, (st.d + t1) % 2 ^ 32, st.e, st.f, st.g⟩

/-- Compress one 64-byte block into the chaining value. -/
def compress (hs : Hash8) (block : List Nat) : Hash8 :=
  let ws := schedule (blockWords block)
  let st := (List.range 64).foldl (round ws) hs
  ⟨(hs.a + st.a) % 2 ^ 32, (hs.b + st.b) % 2 ^ 32, (hs.c + st.c) % 2 ^ 32,
   (hs.d + st.d) % 2 ^ 32, (hs.e + st.e) % 2 ^ 32, (hs.f + st.f) % 2 ^ 32,
   (hs.g + st.g) % 2 ^ 32, (hs.h + st.h) % 2 ^ 32⟩

/-- Big-endian bytes of one 32-bit word. -/
def wordBytes (w : Nat) : List Nat :=
  [(w >>> 24) % 256, (w >>> 16) % 256, (w >>> 8) % 256, w % 256]

/-- SHA-256 digest of a byte list, as its 32 bytes. -/
def sha256 (msg : List Nat) : List Nat :=
  let padded := shaPad msg
  let final := ((List.range (padded.length / 64)).map
    (fun i => (padded.drop (64 * i)).take 64)).foldl compress initH
  wordBytes final.a ++ wordBytes final.b ++ wordBytes final.c ++
  wordBytes final.d ++ wordBytes final.e ++ wordBytes final.f ++
  wordBytes final.g ++ wordBytes final.h

/-- UTF-8 bytes of one code point. -/
def utf8CharBytes (c : Nat) : List Nat :=
  if c < 0x80 then [c]
  else if c < 0x800 then
    [0xc0 ||| (c >>> 6), 0x80 ||| (c &&& 0x3f)]
  else if c < 0x10000 then
    [0xe0 ||| (c >>> 12), 0x80 ||| ((c >>> 6) &&& 0x3f), 0x80 ||| (c &&& 0x3f)]
  else
    [0xf0 ||| (c >>> 18), 0x80 ||| ((c >>> 12) &&& 0x3f),
     0x80 ||| ((c >>> 6) &&& 0x3f), 0x80 ||| (c &&& 0x3f)]

/-- UTF-8 encoding of a string (model of Python's `text.encode()`). -/
def utf8Bytes (s : String) : List Nat :=
  s.data.flatMap fun c => utf8CharBytes c.toNat

/-! ## Fallback encoder and normalizer -/

/-- Raw fallback vector of a text, before normalization: for each index
`i` below 384, component `(hash_bytes[i % len] / 255.0) - 0.5`, built by
appending inside the loop exactly as the script does.  Components are
exact rationals (the idealization of the script's floats). -/
def fallbackRaw (text : String) : List ℚ :=
  let hash_bytes := sha256 (utf8Bytes text)
  (List.range 384).foldl
    (fun emb i =>
      let byte_idx := i % hash_bytes.length
      emb ++ [((hash_bytes.getD byte_idx 0 : ℕ) : ℚ) / 255 - 0.5])
    []

/-- VectorNormalizer: L2-normalize when the Euclidean norm is positive,
return the vector unchanged when it is zero (`np.linalg.norm` followed by
the `norm > 0` guard). -/
noncomputable def l2normalize (v : List ℝ) : List ℝ :=
  let norm := Real.sqrt ((v.map fun x => x * x).sum)
  if norm > 0 then v.map fun x => x / norm else v

/-- The exact-real reading of a rational vector. -/
def castVec (v : List ℚ) : List ℝ :=
  v.map fun q : ℚ => (q : ℝ)

/-- DeterministicFallbackEncoder: the normalized deterministic mock
embedding of one text. -/
noncomputable def fallbackVector (text : String) : List ℝ :=
  l2normalize (castVec (fallbackRaw text))

/-- Euclidean norm of a real vector. -/
noncomputable def euclideanNorm (v : List ℝ) : ℝ :=
  Real.sqrt ((v.map fun x => x * x).sum)

/-! ## Model cache and embedding service

The loader capability (`SentenceTransformer(...)`) is modelled as a state
transformer over an abstract world `W`, so that claims about how often the
loader runs are statable; `M` is the opaque model-handle type. -/

/-- The identifier actually handed to the loader: the script special-cases
the default model name. -/
def resolveName (n : String) : String :=
  if n = "all-MiniLM-L6-v2" then "sentence-transformers/all-MiniLM-L6-v2" else n

/-- ModelCache contents: identifier/handle pairs, newest first. -/
abbrev Cache (M : Type) := List (String × M)

/-- ModelCache.getOrLoad (`load_model`): return the cached handle, or run
the loader, cache the handle on success, and wrap the failure reason on
error. -/
def load_model {M W : Type} (loader : String → W → Except String M × W)
    (cache : Cache M) (name : String) (w : W) :
    Except String M × Cache M × W :=
  match cache.lookup name with
  | some m => (.ok m, cache, w)
  | none =>
      match loader (resolveName name) w with
      | (.ok m, w2) => (.ok m, (name, m) :: cache, w2)
      | (.error e, w2) =>
          (.error ("Failed to load model " ++ name ++ ": " ++ e), cache, w2)

/-- Successful embedding result: the vectors plus the backend sentinel
(wall-clock latency is not modelled). -/
structure EmbedOk where
  embeddings : List (List ℝ)
  model_used : String

/-- EmbeddingService (`generate_embeddings`): fallback path when no real
backend is available, otherwise load via the cache and batch-encode;
loader failures are caught and surface as in-band errors. -/
noncomputable def generate_embeddings {M W : Type} (available : Bool)
    (loader : String → W → Except String M × W)
    (encodeBatch : M → List String → List (List ℝ))
    (cache : Cache M) (w : W) (texts : List String) (model_name : String) :
    Except String EmbedOk × Cache M × W :=
  if available then
    match load_model loader cache model_name w with
    | (.ok m, cache2, w2) => (.ok ⟨encodeBatch m texts, model_name⟩, cache2, w2)
    | (.error e, cache2, w2) => (.error e, cache2, w2)
  else
    (.ok ⟨texts.map fallbackVector, "mock_fallback"⟩, cache, w)

/-! ## Request server (`main`) -/

/-- The fields `main` reads from the parsed JSON request; `none` models an
absent key, so the `.get` defaults live in the server, as in the script. -/
structure ReqJson where
  texts : Option (List String)
  model_name : Option String

/-- One JSON object written to stdout: either an error object or a
successful embedding result. -/
inductive Output where
  | err (msg : String)
  | ok (r : EmbedOk)

/-- Python's `str.strip()`: drop leading and trailing whitespace (stated
over the character list so that it evaluates by kernel reduction). -/
def pyStrip (s : String) : String :=
  ⟨((s.data.dropWhile Char.isWhitespace).reverse.dropWhile Char.isWhitespace).reverse⟩

/-- RequestServer (`main`): read one line, strip it, guard blank input,
parse (the JSON parser is the abstract capability `parse`; its failure is
the caught script-level exception), apply defaults, guard empty texts, and
serialize exactly one result.  Totality of this function is the model of
"exactly one JSON object on every exit path, normal termination". -/
noncomputable def serveRequest {M W : Type} (available : Bool)
    (loader : String → W → Except String M × W)
    (encodeBatch : M → List String → List (List ℝ))
    (cache : Cache M) (w : W)
    (parse : String → Except String ReqJson) (input : String) :
    Output × Cache M × W :=
  let request_line := pyStrip input
  if request_line = "" then (.err "No input provided", cache, w)
  else
    match parse request_line with
    | .error e => (.err ("Script error: " ++ e), cache, w)
    | .ok r =>
        let texts := r.texts.getD []
        let model_name := r.model_name.getD "all-MiniLM-L6-v2"
        if texts = [] then (.err "No texts provided", cache, w)
        else
          match generate_embeddings available loader encodeBatch cache w texts model_name with
          | (.ok res, cache2, w2) => (.ok res, cache2, w2)
          | (.error e, cache2, w2) => (.err e, cache2, w2)

/-- Modelled from the spec's words (§4.2 DeterministicFallbackEncoder),
for comparison with the implementation's `fallbackRaw`: for index `i` in
`[0, 384)` take `digest[i mod len(digest)]`, map the byte to
`(byte / 255.0) - 0.5`. -/
def specRawVector (text : String) : List ℚ :=
  let digest := sha256 (utf8Bytes text)
  (List.range 384).map fun i =>
    ((digest.getD (i % digest.length) 0 : ℕ) : ℚ) / 255 - 0.5

/-! ## Helper lemmas -/

/-- Folding append-of-singletons is `map`. -/
theorem foldl_append_eq_map {α β : Type} (f : α → β) :
    ∀ (l : List α) (acc : List β),
      l.foldl (fun a x => a ++ [f x]) acc = acc ++ l.map f := by
  intro l
  induction l with
  | nil => intro acc; simp
  | cons x xs ih => intro acc; simp [ih]

/-- The digest always has 32 bytes. -/
theorem sha256_length (msg : List Nat) : (sha256 msg).length = 32 := by
  simp [sha256, wordBytes]

/-- Every digest byte is below 256. -/
theorem mem_sha256_lt (msg : List Nat) (b : Nat) (hb : b ∈ sha256 msg) :
    b < 256 := by
  simp only [sha256, wordBytes, List.mem_append, List.mem_cons,
    List.not_mem_nil, or_false] at hb
  omega

/-- Indexing with a default keeps byte values below 256. -/
theorem sha256_getD_lt (msg : List Nat) (i : Nat) :
    (sha256 msg).getD i 0 < 256 := by
  by_cases h : i < (sha256 msg).length
  · rw [List.getD_eq_getElem _ _ h]
    exact mem_sha256_lt msg _ (List.getElem_mem h)
  · rw [List.getD_eq_default _ _ (Nat.le_of_not_lt h)]
    norm_num

/-- Default-indexing a mapped range evaluates the function. -/
theorem map_range_getD {α : Type} (f : Nat → α) (n i : Nat) (h : i < n) (d : α) :
    ((List.range n).map f).getD i d = f i := by
  rw [List.getD_eq_getElem _ _ (by simpa using h)]
  simp

/-- The raw fallback vector, as a `map` over indices (the digest has 32
bytes, so the cyclic index is `i % 32`). -/
theorem fallbackRaw_eq_map (s : String) :
    fallbackRaw s = (List.range 384).map
      (fun i => ((sha256 (utf8Bytes s)).getD (i % 32) 0 : ℚ) / 255 - 0.5) := by
  unfold fallbackRaw
  rw [foldl_append_eq_map]
  simp [sha256_length]

/-- The implementation's raw vector coincides with the spec's description. -/
theorem fallbackRaw_eq_specRawVector (s : String) :
    fallbackRaw s = specRawVector s := by
  rw [fallbackRaw_eq_map]
  unfold specRawVector
  simp [sha256_length]

/-- A byte-derived component is never zero: `b / 255 = 1 / 2` has no
integer solution below 256. -/
theorem byte_component_ne_zero (b : Nat) :
    ((b : ℚ) / 255 - 0.5) ≠ 0 := by
  intro h
  have h2 : ((2 * b : Nat) : ℚ) = ((255 : Nat) : ℚ) := by
    push_cast
    field_simp at h
    linarith
  have := Nat.cast_injective h2
  omega

/-- A byte-derived component lies in the closed interval `[-1/2, 1/2]`. -/
theorem byte_component_bounds (b : Nat) (hb : b < 256) :
    -0.5 ≤ ((b : ℚ) / 255 - 0.5) ∧ ((b : ℚ) / 255 - 0.5) ≤ 0.5 := by
  have h0 : (0 : ℚ) ≤ (b : ℚ) := Nat.cast_nonneg b
  have h1 : (b : ℚ) ≤ 255 := by exact_mod_cast Nat.le_of_lt_succ hb
  constructor <;> [nlinarith; nlinarith]

/-- Characterization of raw fallback components. -/
theorem mem_fallbackRaw (s : String) (c : ℚ) (hc : c ∈ fallbackRaw s) :
    ∃ b : Nat, b < 256 ∧ c = (b : ℚ) / 255 - 0.5 := by
  rw [fallbackRaw_eq_map] at hc
  rcases List.mem_map.mp hc with ⟨i, _, rfl⟩
  exact ⟨(sha256 (utf8Bytes s)).getD (i % 32) 0, sha256_getD_lt _ _, rfl⟩

/-- The raw fallback vector has a head component. -/
theorem fallbackRaw_has_mem (s : String) :
    ((sha256 (utf8Bytes s)).getD 0 0 : ℚ) / 255 - 0.5 ∈ fallbackRaw s := by
  rw [fallbackRaw_eq_map]
  exact List.mem_map.mpr ⟨0, List.mem_range.mpr (by norm_num), rfl⟩

/-- Sums of squares are nonnegative. -/
theorem sumSq_nonneg (v : List ℝ) : 0 ≤ (v.map fun x => x * x).sum := by
  induction v with
  | nil => simp
  | cons x xs ih => simp only [List.map_cons, List.sum_cons]; nlinarith

/-- A sum of squares with a nonzero member is positive. -/
theorem sumSq_pos (v : List ℝ) (x : ℝ) (hx : x ∈ v) (hx0 : x ≠ 0) :
    0 < (v.map fun y => y * y).sum := by
  induction v with
  | nil => cases hx
  | cons y ys ih =>
      simp only [List.map_cons, List.sum_cons]
      rcases List.mem_cons.mp hx with rfl | hmem
      · have h1 := sumSq_nonneg ys
        have h2 := mul_self_pos.mpr hx0
        linarith
      · have h1 := ih hmem
        have h2 := mul_self_nonneg y
        linarith

/-- A sum of squares of an all-zero list is zero. -/
theorem sumSq_zero (v : List ℝ) (h : ∀ x ∈ v, x = 0) :
    (v.map fun x => x * x).sum = 0 := by
  induction v with
  | nil => simp
  | cons y ys ih =>
      have hy : y = 0 := h y (List.mem_cons_self y ys)
      simp only [List.map_cons, List.sum_cons, hy, ih (fun x hx => h x (List.mem_cons_of_mem y hx))]
      ring

/-- Dividing every component by `n` divides the sum of squares by `n * n`. -/
theorem sumSq_div (v : List ℝ) (n : ℝ) :
    ((v.map fun x => x / n).map fun x => x * x).sum
      = (v.map fun x => x * x).sum / (n * n) := by
  induction v with
  | nil => simp
  | cons y ys ih =>
      simp only [List.map_cons, List.sum_cons, ih]
      rw [div_mul_div_comm, div_add_div_same]


/-- On a vector with positive sum of squares, the normalizer takes the
dividing branch. -/
theorem l2normalize_pos (v : List ℝ) (h : 0 < (v.map fun x => x * x).sum) :
    l2normalize v = v.map fun x => x / Real.sqrt ((v.map fun x => x * x).sum) := by
  unfold l2normalize
  rw [if_pos (Real.sqrt_pos.mpr h)]

/-- Normalizing a vector with positive sum of squares yields a unit
vector. -/
theorem euclideanNorm_l2normalize (v : List ℝ)
    (h : 0 < (v.map fun x => x * x).sum) :
    euclideanNorm (l2normalize v) = 1 := by
  rw [l2normalize_pos v h]
  unfold euclideanNorm
  rw [sumSq_div, Real.mul_self_sqrt h.le, div_self (ne_of_gt h), Real.sqrt_one]

/-- An all-zero vector passes through the normalizer unchanged. -/
theorem l2normalize_of_all_zero (v : List ℝ) (h : ∀ x ∈ v, x = 0) :
    l2normalize v = v := by
  unfold l2normalize
  rw [sumSq_zero v h, Real.sqrt_zero]
  simp

/-- An all-zero vector has norm zero. -/
theorem euclideanNorm_of_all_zero (v : List ℝ) (h : ∀ x ∈ v, x = 0) :
    euclideanNorm v = 0 := by
  unfold euclideanNorm
  rw [sumSq_zero v h, Real.sqrt_zero]

/-- Casting preserves membership. -/
theorem mem_castVec (v : List ℚ) (q : ℚ) (h : q ∈ v) : (q : ℝ) ∈ castVec v := by
  unfold castVec
  exact List.mem_map.mpr ⟨q, h, rfl⟩

/-- The cast raw fallback vector has a positive sum of squares: its head
component is a nonzero byte-derived value. -/
theorem fallbackRaw_cast_sumSq_pos (s : String) :
    0 < ((castVec (fallbackRaw s)).map fun x => x * x).sum := by
  refine sumSq_pos _ _ (mem_castVec _ _ (fallbackRaw_has_mem s)) ?_
  exact Rat.cast_ne_zero.mpr (byte_component_ne_zero _)

/-- Every fallback vector is a unit vector. -/
theorem fallbackVector_norm_one (s : String) :
    euclideanNorm (fallbackVector s) = 1 := by
  unfold fallbackVector
  exact euclideanNorm_l2normalize _ (fallbackRaw_cast_sumSq_pos s)

/-! ## Claims -/

/-- C1 (counterexample): calling the embedding service directly with an
empty texts sequence on the fallback path returns a successful result with
an empty vectors list and the fallback sentinel — not an error result, so
the claim that `generate` itself rejects empty input fails. -/
theorem c1_generate_empty_texts_succeeds :
    generate_embeddings (M := Unit) (W := Unit)
      false (fun _ w => (.error "unavailable", w)) (fun _ _ => [])
      [] () [] "all-MiniLM-L6-v2"
      = (.ok ⟨[], "mock_fallback"⟩, [], ()) := by
  simp [generate_embeddings]

/-- C1 (amended): an empty (or absent) texts list is rejected with the
request-level error "No texts provided" by the request server, before the
generate behavior runs and with the cache and world untouched; the service
itself, called directly with empty texts on the fallback path, returns a
successful empty result. -/
theorem c1_empty_texts_rejected_at_request_level {M W : Type} (available : Bool)
    (loader : String → W → Except String M × W)
    (eb : M → List String → List (List ℝ)) (cache : Cache M) (w : W)
    (parse : String → Except String ReqJson) (input : String) (r : ReqJson)
    (hne : ¬ pyStrip input = "") (hp : parse (pyStrip input) = .ok r)
    (ht : r.texts.getD [] = []) :
    serveRequest available loader eb cache w parse input
      = (.err "No texts provided", cache, w)
    ∧ ∀ name, generate_embeddings false loader eb cache w [] name
        = (.ok ⟨[], "mock_fallback"⟩, cache, w) := by
  constructor
  · simp [serveRequest, hne, hp, ht]
  · intro name
    simp [generate_embeddings]

/-- C1 (witness): concrete request whose texts field is the empty list. -/
theorem c1_empty_texts_rejected_witness :
    serveRequest (M := Nat) (W := Nat) false (fun _ w => (.error "x", w))
        (fun _ _ => []) [] 0 (fun _ => .ok ⟨some [], none⟩) "x"
      = (.err "No texts provided", [], 0) :=
  (c1_empty_texts_rejected_at_request_level false (fun _ w => (.error "x", w))
    (fun _ _ => []) [] 0 (fun _ => .ok ⟨some [], none⟩) "x" ⟨some [], none⟩
    (by decide) rfl rfl).1

/-- C2: the fallback output is a deterministic function of the input
texts alone — identical across arbitrary cache states, loader and backend
capabilities and model names, and across two successive calls. -/
theorem c2_fallback_encode_deterministic {M W N V : Type}
    (loader : String → W → Except String M × W)
    (loader2 : String → V → Except String N × V)
    (eb : M → List String → List (List ℝ)) (eb2 : N → List String → List (List ℝ))
    (cache : Cache M) (cache2 : Cache N) (w : W) (v : V)
    (texts : List String) (name name2 : String) :
    (generate_embeddings false loader eb cache w texts name).1
      = (generate_embeddings false loader2 eb2 cache2 v texts name2).1
    ∧ (generate_embeddings false loader eb
        (generate_embeddings false loader eb cache w texts name).2.1
        (generate_embeddings false loader eb cache w texts name).2.2 texts name).1
      = (generate_embeddings false loader eb cache w texts name).1 := by
  constructor <;> simp [generate_embeddings]

/-- C3: with a loader that increments a counter, two `load_model` calls
for the same (uncached) identifier increment the counter exactly once, and
the second call returns the handle cached by the first, unchanged. -/
theorem c3_cache_loads_at_most_once {M : Type} (f : String → M)
    (cache : Cache M) (name : String) (k : Nat)
    (h : cache.lookup name = none) :
    load_model (fun n c => (.ok (f n), c + 1)) cache name k
      = (.ok (f (resolveName name)), (name, f (resolveName name)) :: cache, k + 1)
    ∧ load_model (fun n c => (.ok (f n), c + 1))
        ((name, f (resolveName name)) :: cache) name (k + 1)
      = (.ok (f (resolveName name)), (name, f (resolveName name)) :: cache, k + 1) := by
  constructor
  · simp [load_model, h]
  · simp [load_model, List.lookup]

/-- C3 (witness): counting loader on an empty cache. -/
theorem c3_cache_loads_at_most_once_witness :
    load_model (fun n c => (.ok ((fun _ => 7) n : Nat), c + 1)) [] "m" 0
      = (.ok 7, [("m", 7)], 1)
    ∧ load_model (fun n c => (.ok ((fun _ => 7) n : Nat), c + 1)) [("m", 7)] "m" 1
      = (.ok 7, [("m", 7)], 1) :=
  c3_cache_loads_at_most_once (fun _ => 7) [] "m" 0 rfl

/-- C4: when the loader throws for an uncached identifier, `load_model`
fails with an error wrapping the identifier and the underlying reason, the
cache is unchanged, and a subsequent call runs the loader from scratch and
may succeed and cache. -/
theorem c4_loader_failure_not_cached {M W : Type}
    (loader : String → W → Except String M × W)
    (cache : Cache M) (name : String) (w w2 w3 : W) (e : String) (m : M)
    (hc : cache.lookup name = none)
    (hfail : loader (resolveName name) w = (.error e, w2)) :
    load_model loader cache name w
      = (.error ("Failed to load model " ++ name ++ ": " ++ e), cache, w2)
    ∧ (loader (resolveName name) w2 = (.ok m, w3) →
        load_model loader cache name w2 = (.ok m, (name, m) :: cache, w3)) := by
  constructor
  · simp [load_model, hc, hfail]
  · intro hok
    simp [load_model, hc, hok]

/-- C4 (witness): a loader that fails on the first world state and
succeeds on the second. -/
theorem c4_loader_failure_not_cached_witness :
    load_model (fun _ c => if c = 0 then (.error "boom", 1) else (.ok (7 : Nat), 2))
        [] "m" 0
      = (.error ("Failed to load model " ++ "m" ++ ": " ++ "boom"), [], 1)
    ∧ load_model (fun _ c => if c = 0 then (.error "boom", 1) else (.ok (7 : Nat), 2))
        [] "m" 1
      = (.ok 7, [("m", 7)], 2) := by
  have h := c4_loader_failure_not_cached
    (fun _ c => if c = 0 then (.error "boom", (1 : Nat)) else (.ok (7 : Nat), 2))
    [] "m" 0 1 2 "boom" 7 rfl rfl
  exact ⟨h.1, h.2 rfl⟩

set_option maxRecDepth 8000 in
/-- C5 (counterexample): the SHA-256 digest of "g" has byte 255 at index
9, so raw component 9 is exactly 0.5 — outside the claimed half-open
interval since 0.5 is not strictly below 0.5. -/
theorem c5_raw_component_interval_counterexample :
    (fallbackRaw "g").getD 9 0 = 0.5 ∧ ¬ (fallbackRaw "g").getD 9 0 < 0.5 := by
  have hb : (sha256 (utf8Bytes "g")).getD (9 % 32) 0 = 255 := by decide
  have hc : (fallbackRaw "g").getD 9 0 = 0.5 := by
    rw [fallbackRaw_eq_map, map_range_getD _ 384 9 (by norm_num), hb]
    norm_num
  exact ⟨hc, by rw [hc]; norm_num⟩

/-- C5 (amended): the fallback encoder computes exactly the spec's raw
vector (digest byte at `i mod 32`, mapped by `byte / 255 - 0.5`) followed
by L2 normalization, and every raw component lies in the closed interval
from -0.5 to 0.5. -/
theorem c5_fallback_algorithm (s : String) :
    fallbackRaw s = specRawVector s
    ∧ fallbackVector s = l2normalize (castVec (specRawVector s))
    ∧ ∀ c ∈ fallbackRaw s, -0.5 ≤ c ∧ c ≤ 0.5 := by
  refine ⟨fallbackRaw_eq_specRawVector s, ?_, ?_⟩
  · unfold fallbackVector
    rw [fallbackRaw_eq_specRawVector]
  · intro c hc
    rcases mem_fallbackRaw s c hc with ⟨b, hb, rfl⟩
    exact byte_component_bounds b hb

/-- C6: for a non-empty input string, the norm of the encoded vector is
1 within tolerance 1/1000000, and in the (unreachable) all-zero raw case
the norm would be 0. -/
theorem c6_unit_norm (s : String) (hs : s ≠ "") :
    ((∀ c ∈ fallbackRaw s, c = 0) → euclideanNorm (fallbackVector s) = 0)
    ∧ (¬ (∀ c ∈ fallbackRaw s, c = 0) →
        |euclideanNorm (fallbackVector s) - 1| ≤ 1 / 1000000) := by
  constructor
  · intro hz
    exact absurd (hz _ (fallbackRaw_has_mem s)) (byte_component_ne_zero _)
  · intro _
    rw [fallbackVector_norm_one s]
    norm_num

/-- C6 (witness): the concrete non-empty string "hello". -/
theorem c6_unit_norm_witness :
    ("hello" : String) ≠ ""
    ∧ (((∀ c ∈ fallbackRaw "hello", c = 0) →
          euclideanNorm (fallbackVector "hello") = 0)
       ∧ (¬ (∀ c ∈ fallbackRaw "hello", c = 0) →
          |euclideanNorm (fallbackVector "hello") - 1| ≤ 1 / 1000000)) :=
  ⟨by decide, c6_unit_norm "hello" (by decide)⟩

/-- C7: for a non-empty text list the service returns one vector per
input text in input order: on the fallback path the result is exactly the
per-text fallback encoding, and on the real path (a backend whose batch
encoder preserves length) a successful result has one vector per text,
obtained by batch-encoding the texts in their given order. -/
theorem c7_order_preservation {M W : Type}
    (loader : String → W → Except String M × W)
    (eb : M → List String → List (List ℝ))
    (cache : Cache M) (w : W) (texts : List String) (name : String)
    (hne : texts ≠ [])
    (heb : ∀ m ts, (eb m ts).length = ts.length) :
    ((generate_embeddings false loader eb cache w texts name).1
        = .ok ⟨texts.map fallbackVector, "mock_fallback"⟩
      ∧ (texts.map fallbackVector).length = texts.length)
    ∧ (∀ r cache2 w2,
        generate_embeddings true loader eb cache w texts name = (.ok r, cache2, w2) →
        (∃ m, r.embeddings = eb m texts) ∧ r.embeddings.length = texts.length) := by
  refine ⟨⟨by simp [generate_embeddings], by simp⟩, ?_⟩
  intro r cache2 w2 hgen
  rcases hl : load_model loader cache name w with ⟨res, c3, w3⟩
  unfold generate_embeddings at hgen
  rw [if_pos rfl, hl] at hgen
  cases res with
  | ok m =>
      simp only [Prod.mk.injEq] at hgen
      obtain ⟨h1, -, -⟩ := hgen
      have hr : r = ⟨eb m texts, name⟩ := by
        cases h1
        rfl
      subst hr
      exact ⟨⟨m, rfl⟩, heb m texts⟩
  | error e =>
      simp at hgen

/-- C7 (witness): one-text list on the fallback path with a
length-preserving backend. -/
theorem c7_order_preservation_witness :
    (generate_embeddings (M := Nat) (W := Nat) false (fun _ w => (.ok 0, w))
        (fun _ ts => ts.map fun _ => ([] : List ℝ)) [] 0 ["a"] "m").1
      = .ok ⟨["a"].map fallbackVector, "mock_fallback"⟩
    ∧ (["a"].map fallbackVector).length = ["a"].length :=
  (c7_order_preservation (fun _ w => (.ok 0, w))
    (fun _ ts => ts.map fun _ => ([] : List ℝ)) [] 0 ["a"] "m"
    (by decide) (fun m ts => by simp)).1

/-- C8: the request server produces exactly one output object on every
path (it is a total function into `Output`): a blank or missing input line
yields the "No input provided" error, and a line the JSON parser rejects
yields the "Script error: " wrapped message, in both cases leaving all
state untouched. -/
theorem c8_request_server_single_response {M W : Type} (available : Bool)
    (loader : String → W → Except String M × W)
    (eb : M → List String → List (List ℝ)) (cache : Cache M) (w : W)
    (parse : String → Except String ReqJson) (input : String) :
    (pyStrip input = "" →
      serveRequest available loader eb cache w parse input
        = (.err "No input provided", cache, w))
    ∧ (∀ e, ¬ pyStrip input = "" → parse (pyStrip input) = .error e →
        serveRequest available loader eb cache w parse input
          = (.err ("Script error: " ++ e), cache, w)) := by
  constructor
  · intro h
    simp [serveRequest, h]
  · intro e hne hp
    simp [serveRequest, hne, hp]

/-- C8 (witness): the empty input line and a concrete line rejected by
the parser. -/
theorem c8_request_server_single_response_witness :
    serveRequest (M := Nat) (W := Nat) false (fun _ w => (.error "x", w))
        (fun _ _ => []) [] 0 (fun _ => .error "boom") ""
      = (.err "No input provided", [], 0)
    ∧ serveRequest (M := Nat) (W := Nat) false (fun _ w => (.error "x", w))
        (fun _ _ => []) [] 0 (fun _ => .error "boom") "notjson"
      = (.err ("Script error: " ++ "boom"), [], 0) :=
  ⟨(c8_request_server_single_response false (fun _ w => (.error "x", w))
      (fun _ _ => []) [] 0 (fun _ => .error "boom") "").1 rfl,
   (c8_request_server_single_response false (fun _ w => (.error "x", w))
      (fun _ _ => []) [] 0 (fun _ => .error "boom") "notjson").2 "boom"
      (by decide) rfl⟩

/-- C9: the fallback path mutates no shared state: the cache and the
world after the call are exactly the ones before it, and the result
carries the "mock_fallback" sentinel. -/
theorem c9_fallback_frame {M W : Type}
    (loader : String → W → Except String M × W)
    (eb : M → List String → List (List ℝ))
    (cache : Cache M) (w : W) (texts : List String) (name : String) :
    generate_embeddings false loader eb cache w texts name
      = (.ok ⟨texts.map fallbackVector, "mock_fallback"⟩, cache, w) := by
  simp [generate_embeddings]

/-- C10: every raw fallback component is a byte-derived value
`b / 255 - 0.5` and never zero, so the raw vector is never all-zero, its
sum of squares is strictly positive, the normalizer's zero branch is
unreachable (the encoder output is exactly the divided vector), and the
encoded vector has norm exactly 1. -/
theorem c10_zero_norm_branch_unreachable (s : String) :
    (∀ c ∈ fallbackRaw s, ∃ b : Nat, b < 256 ∧ c = (b : ℚ) / 255 - 0.5 ∧ c ≠ 0)
    ∧ ¬ (∀ c ∈ fallbackRaw s, c = 0)
    ∧ 0 < ((castVec (fallbackRaw s)).map fun x => x * x).sum
    ∧ fallbackVector s = (castVec (fallbackRaw s)).map
        (fun x => x / Real.sqrt
          (((castVec (fallbackRaw s)).map fun x => x * x).sum))
    ∧ euclideanNorm (fallbackVector s) = 1 := by
  refine ⟨?_, ?_, fallbackRaw_cast_sumSq_pos s, ?_, fallbackVector_norm_one s⟩
  · intro c hc
    rcases mem_fallbackRaw s c hc with ⟨b, hb, rfl⟩
    exact ⟨b, hb, rfl, byte_component_ne_zero b⟩
  · intro hz
    exact absurd (hz _ (fallbackRaw_has_mem s)) (byte_component_ne_zero _)
  · unfold fallbackVector
    exact l2normalize_pos _ (fallbackRaw_cast_sumSq_pos s)

end Pirex
